import Mathlib

/-!
Verification of `light-clients/ics07-tendermint/src/consensus_state.rs`:
the Tendermint light-client consensus-state record, its protobuf raw form,
the decode/encode conversions and the header projection.

Shallow embedding conventions: Rust `Vec<u8>` becomes `List Nat`;
`tendermint::time::Time` becomes a pair of integers (unix seconds, nanoseconds)
whose construction sites enforce the range invariant of the Rust type;
fallible conversions return `Except`.
-/

set_option autoImplicit false

namespace Centauri

/-- A byte sequence on the wire (`Vec<u8>` in the source). -/
abbrev Bytes := List Nat

/-- `tendermint::time::Time`: a point in UTC time with nanosecond resolution.
The Rust type maintains the invariant that the value lies in years 1..=9999
and nanos in [0, 999999999]; here the invariant is the predicate
`Time.reprValid`, established by every constructing conversion. -/
structure Time where
  seconds : Int
  nanos   : Int
deriving Repr, DecidableEq

/-- Unix seconds of 0001-01-01T00:00:00Z, the lower bound of `Time`. -/
def Time.minSeconds : Int := -62135596800

/-- Unix seconds of 9999-12-31T23:59:59Z, the upper bound of `Time`. -/
def Time.maxSeconds : Int := 253402300799

/-- The `(seconds, nanos)` pair is representable as a `tendermint::time::Time`
(wire-representable timestamp): nanos in range and date in years 1..=9999. -/
def Time.reprValid (seconds nanos : Int) : Prop :=
  0 ≤ nanos ∧ nanos ≤ 999999999 ∧ Time.minSeconds ≤ seconds ∧ seconds ≤ Time.maxSeconds

instance Time.reprValidDec (seconds nanos : Int) : Decidable (Time.reprValid seconds nanos) :=
  inferInstanceAs (Decidable
    (0 ≤ nanos ∧ nanos ≤ 999999999 ∧ Time.minSeconds ≤ seconds ∧ seconds ≤ Time.maxSeconds))

/-- `tendermint::Hash`: either the empty hash (`Hash::None`) or a SHA-256
digest (`Hash::Sha256([u8; 32])`, whose 32-byte length is enforced at every
construction site, mirroring the fixed-size array of the source). -/
inductive Hash where
  | none : Hash
  | sha256 (digest : Bytes) : Hash
deriving Repr, DecidableEq

/-- `Hash::as_bytes`: the raw digest bytes; empty for `Hash::None`. -/
def Hash.as_bytes : Hash → Bytes
  | .none => []
  | .sha256 d => d

/-- Detail string of `tendermint::error::Error::invalid_hash_size`. -/
def msgInvalidHashSize : String := "invalid hash size"

/-- `Hash::from_bytes(Algorithm::Sha256, bytes)` (tendermint): empty input
yields `Hash::None`, a 32-byte input yields `Hash::Sha256`, any other length
is an invalid-hash-size error. -/
def Hash.from_bytes (bytes : Bytes) : Except String Hash :=
  if bytes.isEmpty then Except.ok Hash.none
  else if bytes.length = 32 then Except.ok (Hash.sha256 bytes)
  else Except.error msgInvalidHashSize

/-- `ibc::core::ics23_commitment::commitment::CommitmentRoot`: an opaque
byte sequence, no structural validation. -/
structure CommitmentRoot where
  bytes : Bytes
deriving Repr, DecidableEq

/-- `CommitmentRoot::from_bytes` (also `From<Vec<u8>>`): wraps the bytes. -/
def CommitmentRoot.from_bytes (b : Bytes) : CommitmentRoot := ⟨b⟩

/-- `CommitmentRoot::into_vec`: the wrapped bytes back. -/
def CommitmentRoot.into_vec (r : CommitmentRoot) : Bytes := r.bytes

/-- `tendermint_proto::google::protobuf::Timestamp` — the intermediate
neutral timestamp representation (the "shunt" of the source comments). -/
structure TpbTimestamp where
  seconds : Int
  nanos   : Int
deriving Repr, DecidableEq

/-- `ibc_proto::google::protobuf::Timestamp`, the timestamp as it appears in
the raw wire message. -/
structure IpbTimestamp where
  seconds : Int
  nanos   : Int
deriving Repr, DecidableEq

/-- `From<Time> for tendermint_proto Timestamp`: the unix seconds and
nanosecond remainder of the time, verbatim. -/
def Time.intoTpb (t : Time) : TpbTimestamp := ⟨t.seconds, t.nanos⟩

/-- Detail strings of the `tendermint` timestamp conversion errors. -/
def msgNegativeNanos : String := "negative nanoseconds"

/-- Detail string for nanoseconds above 999999999. -/
def msgNanosRange : String := "nanoseconds out of range"

/-- Detail string of `tendermint::error::Error::date_out_of_range`. -/
def msgDateOutOfRange : String := "date out of range"

/-- `TryFrom<tendermint_proto Timestamp> for Time`: rejects negative nanos
(the `i32 -> u32` conversion), nanos above 999999999, and dates outside
years 1..=9999 (`OffsetDateTime::from_unix_timestamp_nanos` + `from_utc`). -/
def Time.tryFromTpb (ts : TpbTimestamp) : Except String Time :=
  if ts.nanos < 0 then Except.error msgNegativeNanos
  else if 999999999 < ts.nanos then Except.error msgNanosRange
  else if ts.seconds < Time.minSeconds ∨ Time.maxSeconds < ts.seconds then
    Except.error msgDateOutOfRange
  else Except.ok ⟨ts.seconds, ts.nanos⟩

/-- `ibc_proto::ibc::core::commitment::v1::MerkleRoot`: the wrapped
merkle-root wire message, one `bytes hash` field. -/
structure MerkleRoot where
  hash : Bytes
deriving Repr, DecidableEq

/-- `ibc_proto::ibc::lightclients::tendermint::v1::ConsensusState`: the raw
wire form; both message fields are optional on the wire. -/
structure RawConsensusState where
  timestamp : Option IpbTimestamp
  root : Option MerkleRoot
  next_validators_hash : Bytes
deriving Repr, DecidableEq

/-- `crate::error::Error`: only the `invalid_raw_consensus_state` constructor
is reachable from this module; it carries the human-readable detail string. -/
inductive Error where
  | invalidRawConsensusState (msg : String)
deriving Repr, DecidableEq

/-- The in-memory `ConsensusState` record (field order as in the source). -/
structure ConsensusState where
  timestamp : Time
  root : CommitmentRoot
  next_validators_hash : Hash
deriving Repr, DecidableEq

/-- `ConsensusState::new`: stores the three arguments, no validation. -/
def ConsensusState.new (root : CommitmentRoot) (timestamp : Time)
    (next_validators_hash : Hash) : ConsensusState :=
  ⟨timestamp, root, next_validators_hash⟩

/-- `ibc::timestamp::Timestamp`: the interface timestamp type of the
`ConsensusState` trait, an optional `Time`. -/
structure IbcTimestamp where
  time : Option Time
deriving Repr, DecidableEq

/-- `impl From<Time> for ibc Timestamp`: wraps the time in `Some`. -/
def Time.intoIbc (t : Time) : IbcTimestamp := ⟨some t⟩

/-- The trait accessor `root()`: a reference to the stored root. -/
def ConsensusState.rootAccessor (s : ConsensusState) : CommitmentRoot := s.root

/-- The trait accessor `timestamp()`: the stored time converted to the
interface timestamp type via `self.timestamp.into()`. -/
def ConsensusState.timestampAccessor (s : ConsensusState) : IbcTimestamp :=
  s.timestamp.intoIbc

/-- Detail string for an absent timestamp field. -/
def msgMissingTimestamp : String := "missing timestamp"

/-- Detail string prepended by `format!` to a timestamp conversion error. -/
def msgInvalidTimestamp : String := "invalid timestamp: "

/-- Detail string for an absent commitment-root field. -/
def msgMissingRoot : String := "missing commitment root"

/-- `TryFrom<RawConsensusState> for ConsensusState`: the decode direction.
The nested matches mirror the evaluation order of the source: the timestamp
`ok_or_else(..)?`, the timestamp `try_into()?` through the intermediate
`tpb::Timestamp`, then inside the `Ok(Self { .. })` struct literal the root
`ok_or_else(..)?` (first field written) and the `Hash::from_bytes(..)?`. -/
def ConsensusState.tryFromRaw (raw : RawConsensusState) :
    Except Error ConsensusState :=
  match raw.timestamp with
  | none => Except.error (Error.invalidRawConsensusState msgMissingTimestamp)
  | some wire =>
    let proto_timestamp : TpbTimestamp := ⟨wire.seconds, wire.nanos⟩
    match Time.tryFromTpb proto_timestamp with
    | Except.error e =>
      Except.error (Error.invalidRawConsensusState (msgInvalidTimestamp ++ e))
    | Except.ok timestamp =>
      match raw.root with
      | none => Except.error (Error.invalidRawConsensusState msgMissingRoot)
      | some mroot =>
        match Hash.from_bytes raw.next_validators_hash with
        | Except.error e => Except.error (Error.invalidRawConsensusState e)
        | Except.ok next_validators_hash =>
          Except.ok ⟨timestamp, CommitmentRoot.from_bytes mroot.hash,
            next_validators_hash⟩

/-- `From<ConsensusState> for RawConsensusState`: the encode direction.
The timestamp goes through the intermediate `tpb::Timestamp` (the two-step
shunt), the root bytes go verbatim into the wrapped `MerkleRoot`, and the
hash contributes its raw digest bytes via `as_bytes().to_vec()`. -/
def ConsensusState.intoRaw (value : ConsensusState) : RawConsensusState :=
  let tpb := value.timestamp.intoTpb
  let timestamp : IpbTimestamp := ⟨tpb.seconds, tpb.nanos⟩
  ⟨some timestamp, some ⟨value.root.into_vec⟩, value.next_validators_hash.as_bytes⟩

/-- `tendermint::block::Header` — the validated block header. The projection
reads only `app_hash`, `time` and `next_validators_hash`; the other fields
are carried to show they are ignored. -/
structure BlockHeader where
  chain_id : String
  height : Int
  time : Time
  last_commit_hash : Option Hash
  data_hash : Option Hash
  validators_hash : Hash
  next_validators_hash : Hash
  consensus_hash : Hash
  app_hash : Bytes
  last_results_hash : Option Hash
  evidence_hash : Option Hash
  proposer_address : Bytes
deriving Repr, DecidableEq

/-- `From<tendermint::block::Header> for ConsensusState`: the structural
projection — three fields copied verbatim, nothing recomputed. -/
def ConsensusState.fromBlockHeader (header : BlockHeader) : ConsensusState :=
  ⟨header.time, CommitmentRoot.from_bytes header.app_hash,
    header.next_validators_hash⟩

/-- `tendermint::block::Commit`: signature material, opaque to this module. -/
structure Commit where
  payload : Bytes
deriving Repr, DecidableEq

/-- `tendermint::block::signed_header::SignedHeader`: header plus commit. -/
structure SignedHeader where
  header : BlockHeader
  commit : Commit
deriving Repr, DecidableEq

/-- `tendermint::validator::Set`: opaque to this module. -/
structure ValidatorSet where
  payload : Bytes
deriving Repr, DecidableEq

/-- `ibc::Height`: revision number and height. -/
structure Height where
  revision_number : Nat
  revision_height : Nat
deriving Repr, DecidableEq

/-- `crate::header::Header`: the higher-level header wrapper embedding the
block header plus signature material and trusted-state references. -/
structure Header where
  signed_header : SignedHeader
  validator_set : ValidatorSet
  trusted_height : Height
  trusted_validator_set : ValidatorSet
deriving Repr, DecidableEq

/-- `From<Header> for ConsensusState`: forwards the embedded block header. -/
def ConsensusState.fromHeader (header : Header) : ConsensusState :=
  ConsensusState.fromBlockHeader header.signed_header.header

/-! ### Helper lemmas about the individual checks of the decoder -/

/-- A representable `(seconds, nanos)` pair converts successfully, with both
components carried over verbatim. -/
theorem Time.tryFromTpb_of_reprValid (ts : TpbTimestamp)
    (h : Time.reprValid ts.seconds ts.nanos) :
    Time.tryFromTpb ts = Except.ok ⟨ts.seconds, ts.nanos⟩ := by
  obtain ⟨h1, h2, h3, h4⟩ := h
  simp only [Time.minSeconds, Time.maxSeconds] at h3 h4
  unfold Time.tryFromTpb
  rw [if_neg (by omega), if_neg (by omega),
    if_neg (by simp only [Time.minSeconds, Time.maxSeconds]; omega)]

/-- A non-representable `(seconds, nanos)` pair fails to convert. -/
theorem Time.tryFromTpb_error_of_not_reprValid (ts : TpbTimestamp)
    (h : ¬ Time.reprValid ts.seconds ts.nanos) :
    ∃ e, Time.tryFromTpb ts = Except.error e := by
  unfold Time.tryFromTpb
  split
  · exact ⟨_, rfl⟩
  · split
    · exact ⟨_, rfl⟩
    · split
      · exact ⟨_, rfl⟩
      · exfalso
        apply h
        rename_i hn hr hd
        refine ⟨by omega, by omega, ?_, ?_⟩ <;>
          simp only [Time.minSeconds, Time.maxSeconds] at hd ⊢ <;> omega

/-- `Hash::from_bytes` on a 32-byte input yields the digest verbatim. -/
theorem Hash.from_bytes_len32 (b : Bytes) (h : b.length = 32) :
    Hash.from_bytes b = Except.ok (Hash.sha256 b) := by
  cases b with
  | nil => simp at h
  | cons a t => simp [Hash.from_bytes, h]

/-- `Hash::from_bytes` on a nonempty input of length other than 32 fails. -/
theorem Hash.from_bytes_bad_len (b : Bytes) (hne : b ≠ []) (h : b.length ≠ 32) :
    Hash.from_bytes b = Except.error msgInvalidHashSize := by
  cases b with
  | nil => exact absurd rfl hne
  | cons a t =>
    unfold Hash.from_bytes
    rw [if_neg (by simp), if_neg h]

/-- Decoding with the timestamp field absent fails with the
missing-timestamp error, whatever the other fields hold. -/
theorem tryFromRaw_timestamp_missing (raw : RawConsensusState)
    (h : raw.timestamp = none) :
    ConsensusState.tryFromRaw raw =
      Except.error (Error.invalidRawConsensusState msgMissingTimestamp) := by
  unfold ConsensusState.tryFromRaw
  rw [h]

/-- Decoding with a present but non-representable timestamp fails with an
invalid-timestamp error, whatever the other fields hold. -/
theorem tryFromRaw_timestamp_invalid (raw : RawConsensusState)
    (wire : IpbTimestamp) (ht : raw.timestamp = some wire)
    (hv : ¬ Time.reprValid wire.seconds wire.nanos) :
    ∃ e, ConsensusState.tryFromRaw raw =
      Except.error (Error.invalidRawConsensusState (msgInvalidTimestamp ++ e)) := by
  obtain ⟨e, he⟩ := Time.tryFromTpb_error_of_not_reprValid ⟨wire.seconds, wire.nanos⟩ hv
  refine ⟨e, ?_⟩
  unfold ConsensusState.tryFromRaw
  rw [ht]
  simp only [he]

/-- Decoding with a representable timestamp but an absent root fails with
the missing-commitment-root error, whatever the hash bytes hold. -/
theorem tryFromRaw_root_missing (raw : RawConsensusState)
    (wire : IpbTimestamp) (ht : raw.timestamp = some wire)
    (hv : Time.reprValid wire.seconds wire.nanos) (hr : raw.root = none) :
    ConsensusState.tryFromRaw raw =
      Except.error (Error.invalidRawConsensusState msgMissingRoot) := by
  unfold ConsensusState.tryFromRaw
  rw [ht]
  simp only [Time.tryFromTpb_of_reprValid ⟨wire.seconds, wire.nanos⟩ hv, hr]

/-- Decoding with the first three checks passing and a hash that fails to
parse reports the hash error. -/
theorem tryFromRaw_hash_invalid (raw : RawConsensusState)
    (wire : IpbTimestamp) (mroot : MerkleRoot) (e : String)
    (ht : raw.timestamp = some wire)
    (hv : Time.reprValid wire.seconds wire.nanos) (hr : raw.root = some mroot)
    (hh : Hash.from_bytes raw.next_validators_hash = Except.error e) :
    ConsensusState.tryFromRaw raw =
      Except.error (Error.invalidRawConsensusState e) := by
  unfold ConsensusState.tryFromRaw
  rw [ht]
  simp only [Time.tryFromTpb_of_reprValid ⟨wire.seconds, wire.nanos⟩ hv, hr, hh]

/-- Decoding with all four checks passing produces the fully-populated
record, every field taken from the wire. -/
theorem tryFromRaw_ok (raw : RawConsensusState) (wire : IpbTimestamp)
    (mroot : MerkleRoot) (hsh : Hash) (ht : raw.timestamp = some wire)
    (hv : Time.reprValid wire.seconds wire.nanos) (hr : raw.root = some mroot)
    (hh : Hash.from_bytes raw.next_validators_hash = Except.ok hsh) :
    ConsensusState.tryFromRaw raw =
      Except.ok ⟨⟨wire.seconds, wire.nanos⟩,
        CommitmentRoot.from_bytes mroot.hash, hsh⟩ := by
  unfold ConsensusState.tryFromRaw
  rw [ht]
  simp only [Time.tryFromTpb_of_reprValid ⟨wire.seconds, wire.nanos⟩ hv, hr, hh]

/-- Any successfully decoded record carries either the empty hash (from
empty wire bytes) or the 32 wire bytes verbatim as a SHA-256 digest. -/
theorem hash_shape_of_ok (raw : RawConsensusState) (r : ConsensusState)
    (h : ConsensusState.tryFromRaw raw = Except.ok r) :
    (raw.next_validators_hash = [] ∧ r.next_validators_hash = Hash.none) ∨
    (raw.next_validators_hash.length = 32 ∧
      r.next_validators_hash = Hash.sha256 raw.next_validators_hash) := by
  cases hts : raw.timestamp with
  | none =>
    rw [tryFromRaw_timestamp_missing raw hts] at h
    exact absurd h (by simp)
  | some wire =>
    by_cases hv : Time.reprValid wire.seconds wire.nanos
    · cases hr : raw.root with
      | none =>
        rw [tryFromRaw_root_missing raw wire hts hv hr] at h
        exact absurd h (by simp)
      | some mroot =>
        cases hh : Hash.from_bytes raw.next_validators_hash with
        | error e =>
          rw [tryFromRaw_hash_invalid raw wire mroot e hts hv hr hh] at h
          exact absurd h (by simp)
        | ok hsh =>
          rw [tryFromRaw_ok raw wire mroot hsh hts hv hr hh] at h
          rw [Except.ok.injEq] at h
          subst h
          unfold Hash.from_bytes at hh
          split at hh
          · rename_i hemp
            rw [Except.ok.injEq] at hh
            exact Or.inl ⟨List.isEmpty_iff.mp hemp, hh.symm⟩
          · split at hh
            · rename_i hlen
              rw [Except.ok.injEq] at hh
              exact Or.inr ⟨hlen, hh.symm⟩
            · exact absurd hh (by simp)
    · obtain ⟨e, he⟩ := tryFromRaw_timestamp_invalid raw wire hts hv
      rw [he] at h
      exact absurd h (by simp)

/-! ### The claims -/

/-- Claim C1: for every valid record (wire-representable timestamp,
well-formed 32-byte SHA-256 next_validators_hash), decoding the raw wire
form produced by encoding the record yields the record back unchanged. -/
theorem decode_encode_roundtrip (r : ConsensusState)
    (hts : Time.reprValid r.timestamp.seconds r.timestamp.nanos)
    (hh : ∃ d, r.next_validators_hash = Hash.sha256 d ∧ d.length = 32) :
    ConsensusState.tryFromRaw (ConsensusState.intoRaw r) = Except.ok r := by
  obtain ⟨d, hd, hlen⟩ := hh
  have henc : ConsensusState.intoRaw r =
      ⟨some ⟨r.timestamp.seconds, r.timestamp.nanos⟩, some ⟨r.root.bytes⟩, d⟩ := by
    simp [ConsensusState.intoRaw, Time.intoTpb, CommitmentRoot.into_vec, hd,
      Hash.as_bytes]
  rw [henc,
    tryFromRaw_ok _ ⟨r.timestamp.seconds, r.timestamp.nanos⟩ ⟨r.root.bytes⟩
      (Hash.sha256 d) rfl hts rfl (Hash.from_bytes_len32 d hlen)]
  cases r with
  | mk t ro nv =>
    cases t
    cases ro
    simp_all [CommitmentRoot.from_bytes]

/-- Concrete instantiation of the round-trip law. -/
theorem decode_encode_roundtrip_wit :
    ConsensusState.tryFromRaw (ConsensusState.intoRaw
        ⟨⟨1672531200, 500000000⟩, ⟨[1, 2, 3]⟩, Hash.sha256 (List.replicate 32 170)⟩) =
      Except.ok ⟨⟨1672531200, 500000000⟩, ⟨[1, 2, 3]⟩,
        Hash.sha256 (List.replicate 32 170)⟩ :=
  decode_encode_roundtrip _ (by decide) ⟨List.replicate 32 170, rfl, by decide⟩

/-- Claim C2: decoding with the timestamp field absent fails with the
missing-timestamp error (the source rendering of MissingField "timestamp"),
and decoding with a present, well-formed timestamp but the wrapped
merkle-root message absent fails with the missing-commitment-root error (the
source rendering of MissingField "commitment_root"); both outcomes are
errors, so no record is produced. -/
theorem decode_missing_field_errors :
    (∀ raw : RawConsensusState, raw.timestamp = none →
      ConsensusState.tryFromRaw raw =
        Except.error (Error.invalidRawConsensusState msgMissingTimestamp)) ∧
    (∀ raw : RawConsensusState, ∀ wire : IpbTimestamp,
      raw.timestamp = some wire → Time.reprValid wire.seconds wire.nanos →
      raw.root = none →
      ConsensusState.tryFromRaw raw =
        Except.error (Error.invalidRawConsensusState msgMissingRoot)) :=
  ⟨tryFromRaw_timestamp_missing, tryFromRaw_root_missing⟩

/-- Concrete instantiations of the two missing-field failures. -/
theorem decode_missing_field_errors_wit :
    ConsensusState.tryFromRaw ⟨none, some ⟨[]⟩, []⟩ =
      Except.error (Error.invalidRawConsensusState msgMissingTimestamp) ∧
    ConsensusState.tryFromRaw ⟨some ⟨0, 0⟩, none, []⟩ =
      Except.error (Error.invalidRawConsensusState msgMissingRoot) :=
  ⟨decode_missing_field_errors.1 _ rfl,
   decode_missing_field_errors.2 _ _ rfl (by decide) rfl⟩

/-- Claim C3 counterexample: a raw message whose next_validators_hash has
length 0 decodes successfully to the empty hash (`Hash::None`) instead of
failing with an invalid-hash error, and the decoded hash is therefore not a
32-byte SHA-256 digest. -/
theorem emptyHash_decode_ok :
    ConsensusState.tryFromRaw ⟨some ⟨0, 0⟩, some ⟨[]⟩, []⟩ =
      Except.ok ⟨⟨0, 0⟩, ⟨[]⟩, Hash.none⟩ := by
  unfold ConsensusState.tryFromRaw Time.tryFromTpb Hash.from_bytes
  norm_num [Time.minSeconds, Time.maxSeconds, CommitmentRoot.from_bytes]

/-- Claim C3 amended: a nonempty hash field with length other than 32 makes
decoding fail with the invalid-hash-size error and never yields a record; an
empty hash field is accepted as the empty hash; a decoded record's hash is
either the empty hash (from empty wire bytes) or exactly the 32 wire bytes
as a SHA-256 digest — never truncated or padded. -/
theorem hash_length_validation :
    (∀ raw : RawConsensusState, ∀ r : ConsensusState,
      raw.next_validators_hash ≠ [] → raw.next_validators_hash.length ≠ 32 →
      ConsensusState.tryFromRaw raw ≠ Except.ok r) ∧
    (∀ raw : RawConsensusState, ∀ wire : IpbTimestamp, ∀ mroot : MerkleRoot,
      raw.timestamp = some wire → Time.reprValid wire.seconds wire.nanos →
      raw.root = some mroot → raw.next_validators_hash ≠ [] →
      raw.next_validators_hash.length ≠ 32 →
      ConsensusState.tryFromRaw raw =
        Except.error (Error.invalidRawConsensusState msgInvalidHashSize)) ∧
    (∀ raw : RawConsensusState, ∀ r : ConsensusState,
      ConsensusState.tryFromRaw raw = Except.ok r →
      (raw.next_validators_hash = [] ∧ r.next_validators_hash = Hash.none) ∨
      (raw.next_validators_hash.length = 32 ∧
        r.next_validators_hash = Hash.sha256 raw.next_validators_hash)) := by
  refine ⟨?_, ?_, hash_shape_of_ok⟩
  · intro raw r hne hlen h
    rcases hash_shape_of_ok raw r h with ⟨h1, _⟩ | ⟨h1, _⟩
    · exact hne h1
    · exact hlen h1
  · intro raw wire mroot ht hv hr hne hlen
    exact tryFromRaw_hash_invalid raw wire mroot _ ht hv hr
      (Hash.from_bytes_bad_len _ hne hlen)

/-- Concrete instantiation of the invalid-hash-size failure. -/
theorem hash_length_validation_wit :
    ConsensusState.tryFromRaw ⟨some ⟨0, 0⟩, some ⟨[]⟩, [7]⟩ =
      Except.error (Error.invalidRawConsensusState msgInvalidHashSize) :=
  hash_length_validation.2.1 _ _ _ rfl (by decide) rfl (by decide) (by decide)

/-- Claim C4: the four validation checks run in the fixed order timestamp
presence, timestamp well-formedness, root presence, hash well-formedness;
whatever the later fields hold, the error reported is that of the first
failing check, and when every check passes the fully-populated record is
returned (decoding never produces a partial record). -/
theorem decode_check_order :
    (∀ raw : RawConsensusState, raw.timestamp = none →
      ConsensusState.tryFromRaw raw =
        Except.error (Error.invalidRawConsensusState msgMissingTimestamp)) ∧
    (∀ raw : RawConsensusState, ∀ wire : IpbTimestamp,
      raw.timestamp = some wire → ¬ Time.reprValid wire.seconds wire.nanos →
      ∃ e, ConsensusState.tryFromRaw raw =
        Except.error (Error.invalidRawConsensusState (msgInvalidTimestamp ++ e))) ∧
    (∀ raw : RawConsensusState, ∀ wire : IpbTimestamp,
      raw.timestamp = some wire → Time.reprValid wire.seconds wire.nanos →
      raw.root = none →
      ConsensusState.tryFromRaw raw =
        Except.error (Error.invalidRawConsensusState msgMissingRoot)) ∧
    (∀ raw : RawConsensusState, ∀ wire : IpbTimestamp, ∀ mroot : MerkleRoot,
      raw.timestamp = some wire → Time.reprValid wire.seconds wire.nanos →
      raw.root = some mroot → raw.next_validators_hash ≠ [] →
      raw.next_validators_hash.length ≠ 32 →
      ConsensusState.tryFromRaw raw =
        Except.error (Error.invalidRawConsensusState msgInvalidHashSize)) ∧
    (∀ raw : RawConsensusState, ∀ wire : IpbTimestamp, ∀ mroot : MerkleRoot,
      ∀ hsh : Hash,
      raw.timestamp = some wire → Time.reprValid wire.seconds wire.nanos →
      raw.root = some mroot →
      Hash.from_bytes raw.next_validators_hash = Except.ok hsh →
      ConsensusState.tryFromRaw raw =
        Except.ok ⟨⟨wire.seconds, wire.nanos⟩,
          CommitmentRoot.from_bytes mroot.hash, hsh⟩) :=
  ⟨tryFromRaw_timestamp_missing, tryFromRaw_timestamp_invalid,
   tryFromRaw_root_missing,
   fun raw wire mroot ht hv hr hne hlen =>
     tryFromRaw_hash_invalid raw wire mroot _ ht hv hr
       (Hash.from_bytes_bad_len _ hne hlen),
   tryFromRaw_ok⟩

/-- Concrete instantiations of the check order, including a message missing
both the timestamp and the root, which reports the timestamp error. -/
theorem decode_check_order_wit :
    ConsensusState.tryFromRaw ⟨none, none, [1, 2]⟩ =
      Except.error (Error.invalidRawConsensusState msgMissingTimestamp) ∧
    (∃ e, ConsensusState.tryFromRaw ⟨some ⟨0, -1⟩, none, []⟩ =
      Except.error (Error.invalidRawConsensusState (msgInvalidTimestamp ++ e))) ∧
    ConsensusState.tryFromRaw ⟨some ⟨0, 0⟩, none, [1]⟩ =
      Except.error (Error.invalidRawConsensusState msgMissingRoot) :=
  ⟨decode_check_order.1 _ rfl,
   decode_check_order.2.1 _ _ rfl (by decide),
   decode_check_order.2.2.1 _ _ rfl (by decide) rfl⟩

/-- Claim C5: the header projection is total by construction and copies the
application hash into the root, the block time into the timestamp and the
next-validator-set hash into the hash field, verbatim. -/
theorem from_header_projection (h : BlockHeader) :
    (ConsensusState.fromBlockHeader h).root = CommitmentRoot.from_bytes h.app_hash ∧
    (ConsensusState.fromBlockHeader h).root.into_vec = h.app_hash ∧
    (ConsensusState.fromBlockHeader h).timestamp = h.time ∧
    (ConsensusState.fromBlockHeader h).next_validators_hash =
      h.next_validators_hash :=
  ⟨rfl, rfl, rfl, rfl⟩

/-- Claim C6: encoding wraps the root bytes verbatim in the merkle-root
message, emits the raw digest bytes of the hash verbatim, and routes the
timestamp through the intermediate neutral representation; it is a total
function with no error path. -/
theorem encode_field_mapping (r : ConsensusState) :
    (ConsensusState.intoRaw r).root = some ⟨r.root.into_vec⟩ ∧
    (ConsensusState.intoRaw r).next_validators_hash =
      r.next_validators_hash.as_bytes ∧
    (ConsensusState.intoRaw r).timestamp =
      some ⟨r.timestamp.intoTpb.seconds, r.timestamp.intoTpb.nanos⟩ :=
  ⟨rfl, rfl, rfl⟩

/-- Claim C7: a present merkle-root wrapper with an empty inner byte
sequence is accepted as-is — decoding succeeds whenever the timestamp is
present and representable and the hash is well-formed. -/
theorem empty_root_accepted (raw : RawConsensusState) (wire : IpbTimestamp)
    (ht : raw.timestamp = some wire)
    (hv : Time.reprValid wire.seconds wire.nanos)
    (hr : raw.root = some ⟨[]⟩)
    (hh : raw.next_validators_hash.length = 32) :
    ConsensusState.tryFromRaw raw =
      Except.ok ⟨⟨wire.seconds, wire.nanos⟩, CommitmentRoot.from_bytes [],
        Hash.sha256 raw.next_validators_hash⟩ :=
  tryFromRaw_ok raw wire ⟨[]⟩ _ ht hv hr (Hash.from_bytes_len32 _ hh)

/-- Concrete instantiation of the empty-root acceptance. -/
theorem empty_root_accepted_wit :
    ConsensusState.tryFromRaw
        ⟨some ⟨1672531200, 500000000⟩, some ⟨[]⟩, List.replicate 32 170⟩ =
      Except.ok ⟨⟨1672531200, 500000000⟩, CommitmentRoot.from_bytes [],
        Hash.sha256 (List.replicate 32 170)⟩ :=
  empty_root_accepted _ _ rfl (by decide) rfl (by decide)

/-- Claim C8: record equality is exactly componentwise equality of the
timestamp, the root and the next-validators hash. -/
theorem eq_iff_componentwise (a b : ConsensusState) :
    a = b ↔ a.timestamp = b.timestamp ∧ a.root = b.root ∧
      a.next_validators_hash = b.next_validators_hash := by
  cases a
  cases b
  simp

/-- Claim C9: projecting a consensus state from the higher-level header
wrapper forwards the embedded block header and inspects nothing else. -/
theorem wrapper_forwards_embedded_header (w : Header) :
    ConsensusState.fromHeader w =
      ConsensusState.fromBlockHeader w.signed_header.header :=
  rfl

/-- Claim C10: the direct constructor is total, performs no validation (the
hash may be any value, including the empty hash) and stores its three
arguments unchanged; the trait accessors return the stored root and the
stored timestamp converted to the interface timestamp type. -/
theorem new_stores_fields_and_accessors (root : CommitmentRoot)
    (timestamp : Time) (nvh : Hash) :
    (ConsensusState.new root timestamp nvh).root = root ∧
    (ConsensusState.new root timestamp nvh).timestamp = timestamp ∧
    (ConsensusState.new root timestamp nvh).next_validators_hash = nvh ∧
    (ConsensusState.new root timestamp nvh).rootAccessor = root ∧
    (ConsensusState.new root timestamp nvh).timestampAccessor =
      timestamp.intoIbc :=
  ⟨rfl, rfl, rfl, rfl, rfl⟩

end Centauri
